import Mathlib

/-!
Verification of the wayvnc core against its specification.

The development shallowly embeds the C sources:

* `src/keyboard.c` — the keymap resolver (lookup-table construction,
  binary-search symbol lookup) and the keyboard injector (`keyboard_feed`).
* the screencopy (SHM) capture backend — `screencopy_buffer_init`,
  `screencopy_buffer`, `screencopy_start`, `screencopy__start_capture`.
* the export-dmabuf capture backend — `dmabuf_close_fds`,
  `dmabuf_capture_stop`, `dmabuf_frame_start`, `dmabuf_frame_object`,
  `dmabuf_timer_ready`, `dmabuf_frame_ready`, `dmabuf_frame_cancel`,
  `dmabuf_capture_start`, plus a small trace semantics over backend events.

Machine integers (xkb keysyms and keycodes are uint32) are modelled as `Nat`
with explicit reduction modulo 2^32 where C performs wrapping arithmetic.
Wall-clock times (microseconds from `gettime_us`) and the derived `double`
quantities are modelled exactly over `Rat`; the C `double` rounding is
idealised as exact arithmetic.  Side effects (wire requests, `close`,
`on_done` continuations) are modelled as explicit action lists.

The xkbcommon library is abstracted as a `Keymap` record of query functions;
the `intset` key-state container and the `frame_capture` dispatch layer are
not part of the provided sources and are modelled from the specification
where noted.
-/

/-! ## Keymap resolver: data model (src/keyboard.c) -/

/-- An entry of the symbol lookup table: `struct table_entry` with
`xkb_keysym_t symbol`, `xkb_keycode_t code`, `int level`. -/
structure TableEntry where
  symbol : Nat
  code : Nat
  level : Nat
deriving DecidableEq, Repr

instance : Inhabited TableEntry := ⟨⟨0, 0, 0⟩⟩

/-- Abstraction of a compiled xkb keymap, viewed through the xkbcommon query
functions that `keyboard.c` uses at layout index 0:
`codes` enumerates the key codes visited by `xkb_keymap_key_for_each`;
`numLevels code` is `xkb_keymap_num_levels_for_key(map, code, 0)`;
`symsAtLevel code level` is the symbol list returned by
`xkb_keymap_key_get_syms_by_level(map, code, 0, level, ...)`;
`modsForLevel code level` is the first modifier mask returned by
`xkb_keymap_key_get_mods_for_level(map, code, 0, level, ...)`. -/
structure Keymap where
  codes : List Nat
  numLevels : Nat → Nat
  symsAtLevel : Nat → Nat → List Nat
  modsForLevel : Nat → Nat → Nat

/-- `key_iter`: for one key code, append `(symbol, code, level)` for every
level and every symbol at that level (`append_entry` is modelled as list
append; the realloc-failure early return of `append_entry` is not taken). -/
def key_iter (km : Keymap) (code : Nat) : List TableEntry :=
  (List.range (km.numLevels code)).flatMap fun level =>
    (km.symsAtLevel code level).map fun s => ⟨s, code, level⟩

/-- The unsorted entry list produced by `xkb_keymap_key_for_each(self->keymap,
key_iter, self)`: all `(symbol, code, level)` triples of the keymap at layout
index 0, in iteration order. -/
def genEntries (km : Keymap) : List TableEntry :=
  km.codes.flatMap (key_iter km)

/-- `compare_symbols`: the qsort comparator; orders by symbol, then level. -/
def compare_symbols (x y : TableEntry) : Int :=
  if x.symbol = y.symbol then
    if x.level < y.level then -1 else if x.level > y.level then 1 else 0
  else
    if x.symbol < y.symbol then -1 else 1

/-- `compare_symbols2`: the bsearch comparator; orders by symbol only. -/
def compare_symbols2 (x y : TableEntry) : Int :=
  if x.symbol < y.symbol then -1 else if x.symbol > y.symbol then 1 else 0

/-- The order in which `compare_symbols` reports `≤ 0`: lexicographic
(symbol ASC, level ASC), non-strict. -/
def symLevLe (x y : TableEntry) : Prop :=
  x.symbol < y.symbol ∨ (x.symbol = y.symbol ∧ x.level ≤ y.level)

/-- `symLevLe` is decidable; `compare_symbols_le_iff` below shows deciding
it agrees with evaluating the C comparator. -/
instance : DecidableRel symLevLe := fun x y =>
  decidable_of_iff
    (x.symbol < y.symbol ∨ (x.symbol = y.symbol ∧ x.level ≤ y.level))
    (by unfold symLevLe; exact Iff.rfl)

instance : IsTrans TableEntry symLevLe := by
  constructor
  intro a b c hab hbc
  unfold symLevLe at hab hbc
  unfold symLevLe
  omega

instance : IsTotal TableEntry symLevLe := by
  constructor
  intro a b
  unfold symLevLe
  omega

/-- `create_lookup_table`: gather all entries with `key_iter`, then
`qsort(..., compare_symbols)`.  qsort guarantees exactly a permutation of its
input that is ordered for the comparator (`symLevLe`, whose decision
procedure is `compare_symbols x y ≤ 0`); `List.insertionSort` realises that
contract. -/
def create_lookup_table (km : Keymap) : List TableEntry :=
  List.insertionSort symLevLe (genEntries km)

/-- The full C4 property of the constructed lookup table: sorted by
(symbol ASC, level ASC); for equal symbols the lower level comes first;
entries of one symbol are contiguous; and, when the keymap presents no
duplicate triples, each `(symbol, code, level)` triple present at layout
index 0 occurs exactly once and nothing else occurs. -/
def LookupTableSpec (km : Keymap) : Prop :=
  List.Pairwise symLevLe (create_lookup_table km)
  ∧ (∀ i j : Fin (create_lookup_table km).length, i ≤ j →
      ((create_lookup_table km).get i).symbol
        = ((create_lookup_table km).get j).symbol →
      ((create_lookup_table km).get i).level
        ≤ ((create_lookup_table km).get j).level)
  ∧ (∀ i j k : Fin (create_lookup_table km).length, i ≤ j → j ≤ k →
      ((create_lookup_table km).get i).symbol
        = ((create_lookup_table km).get k).symbol →
      ((create_lookup_table km).get j).symbol
        = ((create_lookup_table km).get i).symbol)
  ∧ (∀ e : TableEntry,
      (create_lookup_table km).count e = if e ∈ genEntries km then 1 else 0)

/-- A small concrete keymap: two key codes, two levels each, one distinct
symbol per (code, level). -/
def km0 : Keymap where
  codes := [38, 39]
  numLevels := fun _ => 2
  symsAtLevel := fun c l => [100 * c + l]
  modsForLevel := fun _ l => if l = 0 then 0 else 1

/-! ## keyboard_find_symbol (src/keyboard.c): bsearch plus left walk -/

/-- The key `keyboard_find_symbol` passes to bsearch:
`struct table_entry cmp = { .symbol = symbol };` with other fields zero. -/
def search_key (symbol : Nat) : TableEntry := ⟨symbol, 0, 0⟩

/-- The body of the C library bsearch over `t[l..u)` with comparator
`compare_symbols2` and key `search_key s`: classic halving search; returns
the index of some entry comparing equal (symbol match), or none.  The fuel
argument only bounds the iteration count and is structural so the function
computes; `bsearch_loop` passes `u - l`, which the halving never exhausts. -/
def bsearch_go (t : List TableEntry) (s : Nat) : Nat → Nat → Nat → Option Nat
  | _, _, 0 => none
  | l, u, fuel + 1 =>
    if l < u then
      let idx := (l + u) / 2
      let c := compare_symbols2 (search_key s) (t.getD idx default)
      if c < 0 then bsearch_go t s l idx fuel
      else if 0 < c then bsearch_go t s (idx + 1) u fuel
      else some idx
    else none

/-- The C library bsearch over `t[l..u)`. -/
def bsearch_loop (t : List TableEntry) (s : Nat) (l u : Nat) : Option Nat :=
  bsearch_go t s l u (u - l)

/-- The left walk of `keyboard_find_symbol`:
`while (entry != table && (entry - 1)->symbol == symbol) --entry;`. -/
def walk_left (t : List TableEntry) (s : Nat) : Nat → Nat
  | 0 => 0
  | i + 1 => if (t.getD i default).symbol = s then walk_left t s i else i + 1

/-- `keyboard_find_symbol`: bsearch for any entry with the symbol, then walk
left to the first entry with that symbol; the returned index models the
returned entry pointer. -/
def keyboard_find_symbol (t : List TableEntry) (s : Nat) : Option Nat :=
  match bsearch_loop t s 0 t.length with
  | none => none
  | some i => some (walk_left t s i)

/-- The table ordered by symbol (nondecreasing), the bsearch precondition. -/
def symOrdered (t : List TableEntry) : Prop :=
  List.Pairwise (fun x y => x.symbol ≤ y.symbol) t

/-- The full C5 property of `keyboard_find_symbol`: when it answers an index,
that index is in range, its entry has the searched symbol, and no
lower-indexed entry has that symbol; when it answers none, no table entry has
the symbol. -/
def FindSymbolSpec (t : List TableEntry) (s : Nat) : Prop :=
  match keyboard_find_symbol t s with
  | some r => r < t.length ∧ (t.getD r default).symbol = s
      ∧ ∀ j, j < r → (t.getD j default).symbol ≠ s
  | none => ∀ e ∈ t, e.symbol ≠ s

/-! ## Keyboard injector (src/keyboard.c): keyboard_feed -/

/-- Wire events of the virtual-keyboard protocol emitted by the injector. -/
inductive WireEvent where
  | modifiers (depressed latched locked group : Nat)
  | key (time code : Nat) (pressed : Bool)
deriving DecidableEq, Repr

/-- 2^32, the modulus of uint32 arithmetic. -/
def U32 : Nat := 4294967296

/-- `entry->code - 8` as computed on a uint32 keycode: wraps modulo 2^32
when the code is below 8. -/
def wire_code (code : Nat) : Nat := (code % U32 + (U32 - 8)) % U32

/-- The injector state.  `key_state` models the `intset` container, whose
implementation is not among the provided sources.  Modelled from the spec:
the KeyStateSet is the set of currently pressed key codes; `intset_is_set`
is membership, `intset_set` inserts, `intset_clear` removes. -/
structure Keyboard where
  keymap : Keymap
  lookup_table : List TableEntry
  key_state : Finset Nat

/-- `keyboard_feed`: resolve the symbol (drop and log unknown symbols); drop
presses and releases that do not change the key state; otherwise update the
key state and emit a modifiers event (`latched = mods`, the rest zero)
followed by the key event for `code - 8` with the requested state. -/
def keyboard_feed (kb : Keyboard) (symbol : Nat) (is_pressed : Bool) :
    Keyboard × List WireEvent :=
  match keyboard_find_symbol kb.lookup_table symbol with
  | none => (kb, [])
  | some i =>
    let entry := kb.lookup_table.getD i default
    let mods := kb.keymap.modsForLevel entry.code entry.level
    let was_pressed : Bool := decide (entry.code ∈ kb.key_state)
    if was_pressed = is_pressed then (kb, [])
    else
      let key_state := if is_pressed then insert entry.code kb.key_state
                       else kb.key_state.erase entry.code
      ({kb with key_state := key_state},
       [WireEvent.modifiers 0 mods 0 0,
        WireEvent.key 0 (wire_code entry.code) is_pressed])

/-- Counts key-press wire events (key events with the pressed state). -/
def pressEvents (evs : List WireEvent) : Nat :=
  evs.countP fun e =>
    match e with
    | WireEvent.key _ _ true => true
    | _ => false

/-- A concrete injector state over `km0` with the constructed lookup table
and no key pressed. -/
def kb0 : Keyboard where
  keymap := km0
  lookup_table := create_lookup_table km0
  key_state := ∅

/-! ## Capture status and the SHM screencopy backend -/

/-- Modelled from the spec: the CaptureStatus tags of section 3
(`frame-capture.h`, which declares the `CAPTURE_*` enum, is not among the
provided sources).  `stopped` doubles as the idle value. -/
inductive CaptureStatus where
  | in_progress
  | stopped
  | done
  | failed
  | fatal
deriving DecidableEq, Repr

/-- The geometry tuple the cached compositor-visible SHM buffer was created
with: `wl_shm_pool_create_buffer(pool, 0, width, height, stride, format)`. -/
structure ShmGeom where
  format : Nat
  width : Nat
  height : Nat
  stride : Nat
deriving DecidableEq, Repr

/-- Observable effects of the SHM backend: the damage-reporting copy
request, `on_done` continuations (recording the status at invocation time),
capture requests, and arming of the one-shot rate-limit timer (duration in
milliseconds, as passed to the event-loop timer). -/
inductive ScreencopyAction where
  | copy_with_damage
  | on_done (status : CaptureStatus)
  | capture_request
  | timer_arm (duration_ms : Rat)
  | frame_destroy
deriving DecidableEq, Repr

/-- `struct screencopy`, restricted to the fields the embedded functions
read or write.  `buffer = none` models a null `self->buffer`; protocol
handles, the smoother internals, `frame_info` and the damage hint are
elided (no claim mentions them).  `last_time` and `start_time` are in
microseconds (`gettime_us`), `delay` in seconds, as in the C. -/
structure Screencopy where
  status : CaptureStatus
  buffer : Option ShmGeom
  bufsize : Nat
  frame : Bool
  last_time : Rat
  start_time : Rat
  delay : Rat
  timer_duration : Option Rat
deriving DecidableEq, Repr

/-- `RATE_LIMIT` (Hz). -/
def RATE_LIMIT : Rat := 20

/-- `screencopy_stop`: stop the rate-limit timer and destroy the outstanding
frame object, if any. -/
def screencopy_stop (st : Screencopy) : Screencopy × List ScreencopyAction :=
  let st1 := { st with timer_duration := none }
  if st1.frame then ({ st1 with frame := false }, [ScreencopyAction.frame_destroy])
  else (st1, [])

/-- `screencopy_buffer_init`: if a pooled buffer already exists, return 0 at
once (reusing it, whatever the advertised geometry); otherwise allocate an
fd of `stride * height` bytes, mmap it, and create the compositor-visible
buffer over it.  `allocOk` folds the three C failure points
(`shm_alloc_fd`, `mmap`, `wl_shm_create_pool` or buffer creation). -/
def screencopy_buffer_init (st : Screencopy) (allocOk : Bool)
    (format width height stride : Nat) : Screencopy × Int :=
  if st.buffer.isSome then (st, 0)
  else if allocOk then
    ({ st with buffer := some ⟨format, width, height, stride⟩,
               bufsize := stride * height }, 0)
  else (st, -1)

/-- The `buffer` event handler `screencopy_buffer`: initialise the pooled
buffer; on failure set `CAPTURE_FATAL`, stop and deliver `on_done`; then (the
C falls through in both cases) request the damage-reporting copy. -/
def screencopy_buffer (st : Screencopy) (allocOk : Bool)
    (format width height stride : Nat) : Screencopy × List ScreencopyAction :=
  let r := screencopy_buffer_init st allocOk format width height stride
  let r2 :=
    if r.2 < 0 then
      let st2 := { r.1 with status := CaptureStatus.fatal }
      let r3 := screencopy_stop st2
      (r3.1, r3.2 ++ [ScreencopyAction.on_done CaptureStatus.fatal])
    else (r.1, [])
  (r2.1, r2.2 ++ [ScreencopyAction.copy_with_damage])

/-- `screencopy__start_capture`: record the start time and issue
`capture_output`; `ok = false` models the request object failing to
allocate (no request reaches the compositor, returns -1). -/
def screencopy__start_capture (st : Screencopy) (now : Rat) (ok : Bool) :
    Screencopy × List ScreencopyAction × Int :=
  let st1 := { st with start_time := now }
  if ok then ({ st1 with frame := true }, [ScreencopyAction.capture_request], 0)
  else (st1, [], -1)

/-- `screencopy_start`: fail fast while a capture is in progress; otherwise
compute `time_left = (1/RATE_LIMIT - dt - delay) * 1e3` milliseconds with
`dt = (now - last_time) * 1e-6` seconds, mark the capture in progress, and
either arm the one-shot timer (positive `time_left`) or start at once. -/
def screencopy_start (st : Screencopy) (now : Rat) (ok : Bool) :
    Screencopy × List ScreencopyAction × Int :=
  if st.status = CaptureStatus.in_progress then (st, [], -1)
  else
    let dt := (now - st.last_time) / 1000000
    let time_left := (1 / RATE_LIMIT - dt - st.delay) * 1000
    let st1 := { st with status := CaptureStatus.in_progress }
    if 0 < time_left then
      ({ st1 with timer_duration := some time_left },
       [ScreencopyAction.timer_arm time_left], 0)
    else
      screencopy__start_capture st1 now ok

/-- The instant (microseconds) at which an action list actually issues the
compositor capture request: an immediate request is issued now; arming the
one-shot timer issues it at fire time, `now + duration_ms * 1e3`
microseconds, when the timer calls `screencopy__poll`, hence
`screencopy__start_capture`. -/
def screencopy_issue_instant (now : Rat) : List ScreencopyAction → Option Rat
  | [] => none
  | ScreencopyAction.capture_request :: _ => some now
  | ScreencopyAction.timer_arm d :: _ => some (now + 1000 * d)
  | _ :: rest => screencopy_issue_instant now rest

/-! ## Export-dmabuf backend -/

/-- Observable effects of the dmabuf backend: `close(fd)` on a plane file
descriptor, `on_done` continuations (with the status visible at invocation),
`capture_output` requests, frame-object destruction and timer arming. -/
inductive DmabufAction where
  | close_fd (fd : Nat)
  | on_done (status : CaptureStatus)
  | capture_request
  | destroy_frame
  | timer_arm (duration_ms : Rat)
deriving DecidableEq, Repr

/-- `struct dmabuf_capture`, restricted to the fields the embedded functions
read or write: the status, the plane count and the per-slot fds of
`self->frame` (width, height, format, modifiers, offsets and pitches are
elided — no claim mentions them), the deadline timer (`timer_armed` is true
while the one-shot timer is pending; `aml_stop` is modelled as succeeding
exactly when the timer is pending), `last_time` in microseconds, and whether
a compositor frame object is held. -/
structure DmabufCapture where
  status : CaptureStatus
  n_planes : Nat
  planes : List Nat
  timer_armed : Bool
  timer_duration : Rat
  last_time : Rat
  zwlr_frame : Bool
deriving DecidableEq, Repr

/-- `dmabuf_close_fds`: close `frame.plane[i].fd` for `i < frame.n_planes`,
then zero `n_planes` (so a second call closes nothing). -/
def dmabuf_close_fds (st : DmabufCapture) : DmabufCapture × List DmabufAction :=
  ({ st with n_planes := 0 },
   (List.range st.n_planes).map fun i => DmabufAction.close_fd (st.planes.getD i 0))

/-- `dmabuf_capture_stop`: if `aml_stop` succeeds (the deadline timer was
pending) close the plane fds; set `CAPTURE_STOPPED`; destroy the
compositor frame object if one is held. -/
def dmabuf_capture_stop (st : DmabufCapture) : DmabufCapture × List DmabufAction :=
  let r := if st.timer_armed then dmabuf_close_fds { st with timer_armed := false }
           else (st, [])
  let st2 := { r.1 with status := CaptureStatus.stopped }
  if st2.zwlr_frame then
    ({ st2 with zwlr_frame := false }, r.2 ++ [DmabufAction.destroy_frame])
  else (st2, r.2)

/-- The `frame` event handler `dmabuf_frame_start`: stop the deadline timer,
close the previously held fds, then record the new geometry — in particular
`n_planes` is set to `num_objects` before any `object` event has delivered
an fd, leaving the per-slot fds stale until they arrive. -/
def dmabuf_frame_start (st : DmabufCapture) (num_objects : Nat) :
    DmabufCapture × List DmabufAction :=
  let r := dmabuf_close_fds { st with timer_armed := false }
  ({ r.1 with n_planes := num_objects }, r.2)

/-- The `object` event handler `dmabuf_frame_object`: store the delivered fd
in its plane slot. -/
def dmabuf_frame_object (st : DmabufCapture) (plane_index fd : Nat) : DmabufCapture :=
  { st with planes := st.planes.set plane_index fd }

/-- The deadline-timer callback `dmabuf_timer_ready`: a no-op unless the
status is still `CAPTURE_IN_PROGRESS`; otherwise record the time, set
`CAPTURE_DONE`, invoke `on_done`, then close the plane fds. -/
def dmabuf_timer_ready (st : DmabufCapture) (now : Rat) :
    DmabufCapture × List DmabufAction :=
  if st.status ≠ CaptureStatus.in_progress then (st, [])
  else
    let st1 := { st with last_time := now, status := CaptureStatus.done }
    let r := dmabuf_close_fds st1
    (r.1, DmabufAction.on_done CaptureStatus.done :: r.2)

/-- `dmabuf_capture_start`: issue `capture_output` and mark the capture in
progress; no fast-fail check of the current status.  `ok = false` models the
request proxy failing to allocate (no request, returns -1). -/
def dmabuf_capture_start (st : DmabufCapture) (ok : Bool) :
    DmabufCapture × List DmabufAction × Int :=
  if ok then
    ({ st with zwlr_frame := true, status := CaptureStatus.in_progress },
     [DmabufAction.capture_request], 0)
  else ({ st with zwlr_frame := false }, [], -1)

/-- The `ready` event handler `dmabuf_frame_ready`: stop (which leaves the
delivered fds open, the deadline timer not being armed on this path), then
either arm the deadline timer and immediately start the next capture
(`frame_capture_start` — modelled from the spec, section 4.4, as forwarding
to the backend `start`), or deliver the frame now and close the fds. -/
def dmabuf_frame_ready (st : DmabufCapture) (now : Rat) (ok : Bool) :
    DmabufCapture × List DmabufAction :=
  let r := dmabuf_capture_stop st
  let dt := (now - st.last_time) / 1000000
  let time_left := (1 / RATE_LIMIT - dt) * 1000
  if 0 ≤ time_left then
    let st2 := { r.1 with timer_armed := true, timer_duration := time_left }
    let r2 := dmabuf_capture_start st2 ok
    (r2.1, r.2 ++ [DmabufAction.timer_arm time_left] ++ r2.2.1)
  else
    let st2 := { r.1 with last_time := now, status := CaptureStatus.done }
    let r2 := dmabuf_close_fds st2
    (r2.1, r.2 ++ [DmabufAction.on_done CaptureStatus.done] ++ r2.2)

/-- The `cancel` event handler `dmabuf_frame_cancel`: stop, set
`CAPTURE_FATAL` for a permanent reason and `CAPTURE_FAILED` otherwise,
invoke `on_done`, then close the plane fds. -/
def dmabuf_frame_cancel (st : DmabufCapture) (permanent : Bool) :
    DmabufCapture × List DmabufAction :=
  let r := dmabuf_capture_stop st
  let st2 := { r.1 with status :=
    if permanent then CaptureStatus.fatal else CaptureStatus.failed }
  let r2 := dmabuf_close_fds st2
  (r2.1, r.2 ++ [DmabufAction.on_done st2.status] ++ r2.2)

/-- External stimuli of the dmabuf backend: protocol events, the deadline
timer firing, and the start/stop entry points. -/
inductive DmabufEvent where
  | start (ok : Bool)
  | stop
  | frame (num_objects : Nat)
  | object (plane_index fd : Nat)
  | ready (now : Rat) (ok : Bool)
  | cancel (permanent : Bool)
  | timer_fire (now : Rat)

/-- One step of the dmabuf backend.  A `timer_fire` is only delivered while
the timer is pending and consumes it, as the event loop does. -/
def dmabuf_step (st : DmabufCapture) : DmabufEvent → DmabufCapture × List DmabufAction
  | DmabufEvent.start ok =>
    let r := dmabuf_capture_start st ok
    (r.1, r.2.1)
  | DmabufEvent.stop => dmabuf_capture_stop st
  | DmabufEvent.frame n => dmabuf_frame_start st n
  | DmabufEvent.object i fd => (dmabuf_frame_object st i fd, [])
  | DmabufEvent.ready now ok => dmabuf_frame_ready st now ok
  | DmabufEvent.cancel p => dmabuf_frame_cancel st p
  | DmabufEvent.timer_fire now =>
    if st.timer_armed then dmabuf_timer_ready { st with timer_armed := false } now
    else (st, [])

/-- Run the backend over an event sequence, collecting every action. -/
def dmabuf_run (st : DmabufCapture) : List DmabufEvent → DmabufCapture × List DmabufAction
  | [] => (st, [])
  | e :: es =>
    let r := dmabuf_step st e
    let r2 := dmabuf_run r.1 es
    (r2.1, r.2 ++ r2.2)

/-- The zero-initialised backend state of `dmabuf_capture_init` (the status
value stands for the idle state). -/
def dmabuf_init : DmabufCapture where
  status := CaptureStatus.stopped
  n_planes := 0
  planes := [0, 0, 0, 0]
  timer_armed := false
  timer_duration := 0
  last_time := 0
  zwlr_frame := false

/-- Two capture cycles: the first delivers plane fd 5 and completes past the
rate-limit deadline (so its `ready` closes fd 5); the second is cancelled
after the `frame` event announced one object but before any `object` event
delivered an fd. -/
def c9_trace : List DmabufEvent :=
  [DmabufEvent.start true,
   DmabufEvent.frame 1,
   DmabufEvent.object 0 5,
   DmabufEvent.ready 100000 true,
   DmabufEvent.start true,
   DmabufEvent.frame 1,
   DmabufEvent.cancel false]

/-- A screencopy state holding a pooled buffer of geometry
(format 0, 100 x 100, stride 400). -/
def scSt0 : Screencopy where
  status := CaptureStatus.stopped
  buffer := some ⟨0, 100, 100, 400⟩
  bufsize := 40000
  frame := true
  last_time := 0
  start_time := 0
  delay := 0
  timer_duration := none

/-- A dmabuf state with a capture already in progress. -/
def dm_inprog : DmabufCapture :=
  { dmabuf_init with status := CaptureStatus.in_progress, zwlr_frame := true }

/-- A screencopy state at rest with a smoothed delay of 10 ms. -/
def scRate : Screencopy where
  status := CaptureStatus.stopped
  buffer := none
  bufsize := 0
  frame := false
  last_time := 0
  start_time := 0
  delay := 1 / 100
  timer_duration := none

/-! ## Theorems -/

theorem compare_symbols_le_iff (x y : TableEntry) :
    compare_symbols x y ≤ 0 ↔ symLevLe x y := by
  unfold compare_symbols symLevLe
  split
  · rename_i hsym
    constructor
    · intro h
      split at h
      · exact Or.inr ⟨hsym, Nat.le_of_lt (by assumption)⟩
      · split at h
        · omega
        · exact Or.inr ⟨hsym, by omega⟩
    · intro h
      rcases h with h | ⟨_, hlev⟩
      · omega
      · split
        · omega
        · split
          · omega
          · omega
  · rename_i hsym
    constructor
    · intro h
      split at h
      · exact Or.inl (by assumption)
      · omega
    · intro h
      rcases h with h | ⟨heq, _⟩
      · simp [h]
      · exact absurd heq hsym

theorem create_lookup_table_sorted (km : Keymap) :
    List.Pairwise symLevLe (create_lookup_table km) :=
  List.sorted_insertionSort symLevLe (genEntries km)

theorem create_lookup_table_perm (km : Keymap) :
    (create_lookup_table km).Perm (genEntries km) :=
  List.perm_insertionSort symLevLe (genEntries km)

theorem pairwise_symbol_le {t : List TableEntry} (h : List.Pairwise symLevLe t)
    (i j : Fin t.length) (hij : i ≤ j) : (t.get i).symbol ≤ (t.get j).symbol := by
  rcases Fin.lt_or_eq_of_le hij with hlt | heq
  · have := List.pairwise_iff_get.mp h i j hlt
    unfold symLevLe at this
    omega
  · rw [heq]

/-- Claim C4: after `create_lookup_table`, the table is sorted by
(symbol ASC, level ASC), same-symbol entries are contiguous with the
lowest-level entry first, and it contains exactly one entry per
`(symbol, code, level)` triple present at layout index 0 of the keymap
(assuming the keymap itself presents each triple once). -/
theorem create_lookup_table_spec (km : Keymap) (hnd : (genEntries km).Nodup) :
    LookupTableSpec km := by
  have hsorted := create_lookup_table_sorted km
  have hperm := create_lookup_table_perm km
  refine ⟨hsorted, ?_, ?_, ?_⟩
  · intro i j hij hsym
    rcases Fin.lt_or_eq_of_le hij with hlt | heq
    · have := List.pairwise_iff_get.mp hsorted i j hlt
      unfold symLevLe at this
      omega
    · rw [heq]
  · intro i j k hij hjk hik
    have h1 := pairwise_symbol_le hsorted i j hij
    have h2 := pairwise_symbol_le hsorted j k hjk
    omega
  · intro e
    rw [hperm.count_eq e]
    by_cases hmem : e ∈ genEntries km
    · simp [hmem, List.count_eq_one_of_mem hnd hmem]
    · simp [hmem, List.count_eq_zero.mpr hmem]

theorem create_lookup_table_spec_witness :
    (genEntries km0).Nodup ∧ LookupTableSpec km0 :=
  ⟨by decide, create_lookup_table_spec km0 (by decide)⟩

theorem symOrdered_of_pairwise {t : List TableEntry}
    (h : List.Pairwise symLevLe t) : symOrdered t := by
  refine h.imp ?_
  intro a b hab
  unfold symLevLe at hab
  omega

theorem symOrdered_getD_le {t : List TableEntry} (h : symOrdered t)
    {i j : Nat} (hij : i ≤ j) (hj : j < t.length) :
    (t.getD i default).symbol ≤ (t.getD j default).symbol := by
  have hi : i < t.length := lt_of_le_of_lt hij hj
  rw [List.getD_eq_getElem t default hi, List.getD_eq_getElem t default hj]
  rcases Nat.lt_or_ge i j with hlt | hge
  · have := List.pairwise_iff_get.mp h ⟨i, hi⟩ ⟨j, hj⟩ hlt
    simpa using this
  · have : i = j := le_antisymm hij hge
    subst this
    exact le_refl _

theorem compare_symbols2_neg {s : Nat} {e : TableEntry} (h : s < e.symbol) :
    compare_symbols2 (search_key s) e = -1 := by
  unfold compare_symbols2 search_key
  simp [h]

theorem compare_symbols2_pos {s : Nat} {e : TableEntry} (h : e.symbol < s) :
    compare_symbols2 (search_key s) e = 1 := by
  unfold compare_symbols2 search_key
  dsimp only
  rw [if_neg (by omega), if_pos (by omega)]

theorem compare_symbols2_zero {s : Nat} {e : TableEntry} (h : s = e.symbol) :
    compare_symbols2 (search_key s) e = 0 := by
  unfold compare_symbols2 search_key
  dsimp only
  rw [if_neg (by omega), if_neg (by omega)]

theorem bsearch_go_step (t : List TableEntry) (s l u fuel : Nat) (h : l < u) :
    bsearch_go t s l u (fuel + 1) =
      if s < (t.getD ((l + u) / 2) default).symbol then
        bsearch_go t s l ((l + u) / 2) fuel
      else if (t.getD ((l + u) / 2) default).symbol < s then
        bsearch_go t s ((l + u) / 2 + 1) u fuel
      else some ((l + u) / 2) := by
  rw [bsearch_go, if_pos h]
  by_cases h1 : s < (t.getD ((l + u) / 2) default).symbol
  · rw [if_pos h1]
    simp only [compare_symbols2_neg h1]
    norm_num
  · rw [if_neg h1]
    by_cases h2 : (t.getD ((l + u) / 2) default).symbol < s
    · rw [if_pos h2]
      simp only [compare_symbols2_pos h2]
      norm_num
    · rw [if_neg h2]
      have hc : s = (t.getD ((l + u) / 2) default).symbol := by omega
      simp only [compare_symbols2_zero hc]
      norm_num

theorem bsearch_go_spec (t : List TableEntry) (s : Nat) (hs : symOrdered t) :
    ∀ fuel l u, u - l ≤ fuel → u ≤ t.length →
    (∀ j, j < l → (t.getD j default).symbol < s) →
    (∀ j, u ≤ j → j < t.length → s < (t.getD j default).symbol) →
    (match bsearch_go t s l u fuel with
     | some i => i < t.length ∧ (t.getD i default).symbol = s
     | none => ∀ j, j < t.length → (t.getD j default).symbol ≠ s) := by
  intro fuel
  induction fuel with
  | zero =>
    intro l u hn hu hlo hhi
    rw [bsearch_go]
    intro j hj
    rcases Nat.lt_or_ge j l with hlt | hge
    · exact Nat.ne_of_lt (hlo j hlt)
    · exact (Nat.ne_of_lt (hhi j (by omega) hj)).symm
  | succ fuel ih =>
    intro l u hn hu hlo hhi
    by_cases hlu : l < u
    · rw [bsearch_go_step t s l u fuel hlu]
      have hidxu : (l + u) / 2 < u := by omega
      have hidxl : l ≤ (l + u) / 2 := by omega
      have hidxlen : (l + u) / 2 < t.length := lt_of_lt_of_le hidxu hu
      by_cases hc1 : s < (t.getD ((l + u) / 2) default).symbol
      · rw [if_pos hc1]
        exact ih l ((l + u) / 2) (by omega) (le_of_lt hidxlen) hlo
          (fun j hj hjlen => lt_of_lt_of_le hc1 (symOrdered_getD_le hs hj hjlen))
      · rw [if_neg hc1]
        by_cases hc2 : (t.getD ((l + u) / 2) default).symbol < s
        · rw [if_pos hc2]
          exact ih ((l + u) / 2 + 1) u (by omega) hu
            (fun j hj => lt_of_le_of_lt
              (symOrdered_getD_le hs (by omega : j ≤ (l + u) / 2) hidxlen) hc2)
            hhi
        · rw [if_neg hc2]
          exact ⟨hidxlen, by omega⟩
    · rw [bsearch_go, if_neg hlu]
      intro j hj
      rcases Nat.lt_or_ge j l with hlt | hge
      · exact Nat.ne_of_lt (hlo j hlt)
      · exact (Nat.ne_of_lt (hhi j (by omega) hj)).symm

theorem bsearch_loop_spec (t : List TableEntry) (s : Nat) (hs : symOrdered t)
    (l u : Nat) (hu : u ≤ t.length)
    (hlo : ∀ j, j < l → (t.getD j default).symbol < s)
    (hhi : ∀ j, u ≤ j → j < t.length → s < (t.getD j default).symbol) :
    (match bsearch_loop t s l u with
     | some i => i < t.length ∧ (t.getD i default).symbol = s
     | none => ∀ j, j < t.length → (t.getD j default).symbol ≠ s) :=
  bsearch_go_spec t s hs (u - l) l u (le_refl _) hu hlo hhi

theorem walk_left_le (t : List TableEntry) (s : Nat) :
    ∀ i, walk_left t s i ≤ i := by
  intro i
  induction i with
  | zero => exact le_refl 0
  | succ i ih =>
    unfold walk_left
    split
    · exact le_trans ih (Nat.le_succ i)
    · exact le_refl _

theorem walk_left_sym (t : List TableEntry) (s : Nat) :
    ∀ i, (t.getD i default).symbol = s →
      (t.getD (walk_left t s i) default).symbol = s := by
  intro i
  induction i with
  | zero => intro h; exact h
  | succ i ih =>
    intro h
    unfold walk_left
    split
    · exact ih (by assumption)
    · exact h

theorem walk_left_pred (t : List TableEntry) (s : Nat) :
    ∀ i, walk_left t s i = 0 ∨
      (t.getD (walk_left t s i - 1) default).symbol ≠ s := by
  intro i
  induction i with
  | zero => exact Or.inl rfl
  | succ i ih =>
    unfold walk_left
    split
    · exact ih
    · exact Or.inr (by simpa using (by assumption : ¬ (t.getD i default).symbol = s))

theorem first_match_of_pred {t : List TableEntry} (hs : symOrdered t) {s r : Nat}
    (hr : r < t.length) (hsym : (t.getD r default).symbol = s)
    (hpred : r = 0 ∨ (t.getD (r - 1) default).symbol ≠ s) :
    ∀ j, j < r → (t.getD j default).symbol ≠ s := by
  intro j hj heq
  rcases hpred with hz | hne
  · omega
  · have h1 : (t.getD j default).symbol ≤ (t.getD (r - 1) default).symbol :=
      symOrdered_getD_le hs (by omega) (by omega)
    have h2 : (t.getD (r - 1) default).symbol ≤ (t.getD r default).symbol :=
      symOrdered_getD_le hs (by omega) hr
    omega

/-- Claim C5: on a symbol-sorted table, `keyboard_find_symbol` returns the
first (lowest-index) entry whose symbol matches, and none when the symbol is
absent. -/
theorem keyboard_find_symbol_spec (t : List TableEntry) (s : Nat)
    (hs : symOrdered t) : FindSymbolSpec t s := by
  unfold FindSymbolSpec keyboard_find_symbol
  have h := bsearch_loop_spec t s hs 0 t.length (le_refl _)
    (by omega) (by omega)
  cases hb : bsearch_loop t s 0 t.length with
  | none =>
    rw [hb] at h
    simp only
    intro e he
    rcases List.mem_iff_get.mp he with ⟨j, hj⟩
    have hne := h j.val j.isLt
    rw [List.getD_eq_getElem t default j.isLt] at hne
    rw [List.get_eq_getElem] at hj
    rw [hj] at hne
    exact hne
  | some i =>
    rw [hb] at h
    simp only
    obtain ⟨hilen, hisym⟩ := h
    have hr : walk_left t s i ≤ i := walk_left_le t s i
    refine ⟨lt_of_le_of_lt hr hilen, walk_left_sym t s i hisym, ?_⟩
    exact first_match_of_pred hs (lt_of_le_of_lt hr hilen)
      (walk_left_sym t s i hisym) (walk_left_pred t s i)

theorem keyboard_find_symbol_spec_witness :
    symOrdered (create_lookup_table km0) ∧
    FindSymbolSpec (create_lookup_table km0) 3900 :=
  ⟨symOrdered_of_pairwise (create_lookup_table_sorted km0),
   keyboard_find_symbol_spec (create_lookup_table km0) 3900
     (symOrdered_of_pairwise (create_lookup_table_sorted km0))⟩

/-- Claim C6: `keyboard_feed` is idempotent in press state.  For a resolved
symbol: if the requested flag equals current membership of the entry's code,
no wire event is emitted and the state is unchanged; and feeding the same
press twice from a state where the code is not pressed emits exactly one
key-press wire event in total. -/
theorem keyboard_feed_idempotent (kb : Keyboard) (symbol : Nat) (i : Nat)
    (hres : keyboard_find_symbol kb.lookup_table symbol = some i) :
    (∀ p : Bool, decide ((kb.lookup_table.getD i default).code ∈ kb.key_state) = p →
      keyboard_feed kb symbol p = (kb, [])) ∧
    ((kb.lookup_table.getD i default).code ∉ kb.key_state →
      pressEvents ((keyboard_feed kb symbol true).2
        ++ (keyboard_feed (keyboard_feed kb symbol true).1 symbol true).2) = 1) := by
  constructor
  · intro p hp
    unfold keyboard_feed
    rw [hres]
    rw [List.getD_eq_getElem?_getD] at hp
    simp [hp]
  · intro hmem
    rw [List.getD_eq_getElem?_getD] at hmem
    have hfirst : keyboard_feed kb symbol true =
        ({kb with key_state := insert (kb.lookup_table.getD i default).code kb.key_state},
         [WireEvent.modifiers 0
            (kb.keymap.modsForLevel (kb.lookup_table.getD i default).code
              (kb.lookup_table.getD i default).level) 0 0,
          WireEvent.key 0 (wire_code (kb.lookup_table.getD i default).code) true]) := by
      unfold keyboard_feed
      rw [hres]
      simp [hmem]
    rw [hfirst]
    have hsecond : keyboard_feed
        ({kb with key_state := insert (kb.lookup_table.getD i default).code kb.key_state} : Keyboard)
        symbol true =
        ({kb with key_state := insert (kb.lookup_table.getD i default).code kb.key_state}, []) := by
      unfold keyboard_feed
      rw [hres]
      simp [Finset.mem_insert]
    rw [hsecond]
    simp [pressEvents]

/-- Claim C7: a resolved, state-changing `keyboard_feed` emits exactly two
wire events, in order: a modifiers event with `latched` equal to the modifier
mask for the entry's (code, level) and `depressed = locked = group = 0`,
then a key event carrying `code - 8` and the requested state. -/
theorem keyboard_feed_two_events (kb : Keyboard) (symbol : Nat) (p : Bool) (i : Nat)
    (hres : keyboard_find_symbol kb.lookup_table symbol = some i)
    (hchanged : decide ((kb.lookup_table.getD i default).code ∈ kb.key_state) ≠ p)
    (hc8 : 8 ≤ (kb.lookup_table.getD i default).code)
    (hclt : (kb.lookup_table.getD i default).code < U32) :
    (keyboard_feed kb symbol p).2 =
      [WireEvent.modifiers 0
         (kb.keymap.modsForLevel (kb.lookup_table.getD i default).code
           (kb.lookup_table.getD i default).level) 0 0,
       WireEvent.key 0 ((kb.lookup_table.getD i default).code - 8) p] := by
  have hwc : wire_code (kb.lookup_table.getD i default).code =
      (kb.lookup_table.getD i default).code - 8 := by
    unfold wire_code U32
    unfold U32 at hclt
    omega
  unfold keyboard_feed
  rw [hres]
  simp only [if_neg hchanged]
  rw [hwc]

theorem keyboard_feed_idempotent_witness :
    keyboard_find_symbol kb0.lookup_table 3900 = some 2 ∧
    (∀ p : Bool, decide ((kb0.lookup_table.getD 2 default).code ∈ kb0.key_state) = p →
      keyboard_feed kb0 3900 p = (kb0, [])) ∧
    ((kb0.lookup_table.getD 2 default).code ∉ kb0.key_state →
      pressEvents ((keyboard_feed kb0 3900 true).2
        ++ (keyboard_feed (keyboard_feed kb0 3900 true).1 3900 true).2) = 1) :=
  ⟨by decide, keyboard_feed_idempotent kb0 3900 2 (by decide)⟩

theorem keyboard_feed_two_events_witness :
    (keyboard_feed kb0 3900 true).2 =
      [WireEvent.modifiers 0
         (kb0.keymap.modsForLevel (kb0.lookup_table.getD 2 default).code
           (kb0.lookup_table.getD 2 default).level) 0 0,
       WireEvent.key 0 ((kb0.lookup_table.getD 2 default).code - 8) true] :=
  keyboard_feed_two_events kb0 3900 true 2 (by decide) (by decide) (by decide)
    (by decide)

/-- Counterexample to claim C1: a buffer event advertising a tuple that
differs from the cached one (200 x 200, stride 800 against the cached
100 x 100, stride 400) leaves the pool untouched — `screencopy_buffer_init`
returns early whenever any buffer exists, never comparing geometry. -/
theorem screencopy_geometry_ignored :
    scSt0.buffer = some ⟨0, 100, 100, 400⟩ ∧
    (⟨0, 200, 200, 800⟩ : ShmGeom) ≠ (⟨0, 100, 100, 400⟩ : ShmGeom) ∧
    (screencopy_buffer scSt0 true 0 200 200 800).1.buffer
      = some ⟨0, 100, 100, 400⟩ ∧
    (screencopy_buffer scSt0 true 0 200 200 800).1.bufsize = 40000 := by
  decide

/-- Claim C1 as amended: the SHM pool is created only when no pooled buffer
exists; once a buffer exists, every later buffer event reuses it unchanged,
whatever the advertised (width, height, stride, format). -/
theorem screencopy_buffer_reuse (st : Screencopy) (ok : Bool) (f w h s : Nat) :
    (∀ g, st.buffer = some g →
      screencopy_buffer_init st ok f w h s = (st, 0) ∧
      (screencopy_buffer st ok f w h s).1.buffer = some g ∧
      (screencopy_buffer st ok f w h s).1.bufsize = st.bufsize) ∧
    (st.buffer = none → ok = true →
      (screencopy_buffer_init st ok f w h s).1.buffer = some ⟨f, w, h, s⟩ ∧
      (screencopy_buffer_init st ok f w h s).1.bufsize = s * h ∧
      (screencopy_buffer_init st ok f w h s).2 = 0) := by
  constructor
  · intro g hg
    have hsome : st.buffer.isSome = true := by rw [hg]; rfl
    have hinit : screencopy_buffer_init st ok f w h s = (st, 0) := by
      unfold screencopy_buffer_init
      rw [if_pos hsome]
    refine ⟨hinit, ?_, ?_⟩
    · unfold screencopy_buffer
      rw [hinit]
      simp [hg]
    · unfold screencopy_buffer
      rw [hinit]
      simp
  · intro hnone hok
    unfold screencopy_buffer_init
    rw [hnone, hok]
    simp

theorem screencopy_buffer_reuse_witness :
    scSt0.buffer = some ⟨0, 100, 100, 400⟩ ∧
    (screencopy_buffer_init scSt0 true 0 200 200 800 = (scSt0, 0) ∧
     (screencopy_buffer scSt0 true 0 200 200 800).1.buffer
       = some ⟨0, 100, 100, 400⟩ ∧
     (screencopy_buffer scSt0 true 0 200 200 800).1.bufsize = scSt0.bufsize) :=
  ⟨rfl, (screencopy_buffer_reuse scSt0 true 0 200 200 800).1 ⟨0, 100, 100, 400⟩ rfl⟩

/-- Counterexample to claim C2: `dmabuf_capture_start` performs no
fast-fail check — called while the status is `CAPTURE_IN_PROGRESS` it still
issues a new `capture_output` request and returns 0 (success). -/
theorem dmabuf_start_ignores_in_progress :
    dm_inprog.status = CaptureStatus.in_progress ∧
    (dmabuf_capture_start dm_inprog true).2.1 = [DmabufAction.capture_request] ∧
    (dmabuf_capture_start dm_inprog true).2.2 = 0 := by
  decide

/-- Claim C2 as amended: only the SHM backend fails fast —
`screencopy_start` while `CAPTURE_IN_PROGRESS` returns -1 without touching
the state or issuing any request, while `dmabuf_capture_start` issues a new
capture request and reports success regardless of the current status. -/
theorem start_in_progress_check (st : Screencopy) (d : DmabufCapture)
    (now : Rat) (ok : Bool) :
    (st.status = CaptureStatus.in_progress →
      screencopy_start st now ok = (st, [], -1)) ∧
    (dmabuf_capture_start d true).2.1 = [DmabufAction.capture_request] ∧
    (dmabuf_capture_start d true).1.status = CaptureStatus.in_progress ∧
    (dmabuf_capture_start d true).2.2 = 0 := by
  refine ⟨?_, ?_, ?_, ?_⟩
  · intro h
    unfold screencopy_start
    rw [if_pos h]
  · simp [dmabuf_capture_start]
  · simp [dmabuf_capture_start]
  · simp [dmabuf_capture_start]

theorem start_in_progress_check_witness :
    ({ scSt0 with status := CaptureStatus.in_progress } : Screencopy).status
      = CaptureStatus.in_progress ∧
    screencopy_start { scSt0 with status := CaptureStatus.in_progress } 0 true
      = ({ scSt0 with status := CaptureStatus.in_progress }, [], -1) :=
  ⟨rfl, (start_in_progress_check
    { scSt0 with status := CaptureStatus.in_progress } dmabuf_init 0 true).1 rfl⟩

/-- Claim C3: for a `screencopy_start` call with status not in progress,
`time_left = (1/RATE_LIMIT - (now - last_time)*1e-6 - delay) * 1e3`
milliseconds; a positive `time_left` arms the one-shot timer (so that
`screencopy__poll` runs `screencopy__start_capture` at fire time), otherwise
the capture request is issued immediately; in both cases the instant the
request is actually issued is at least
`last_time + (1/RATE_LIMIT - delay) * 1e6` microseconds. -/
theorem screencopy_start_rate_limit (st : Screencopy) (now : Rat) (ok : Bool)
    (hst : st.status ≠ CaptureStatus.in_progress) :
    (0 < (1 / RATE_LIMIT - (now - st.last_time) / 1000000 - st.delay) * 1000 →
      screencopy_start st now ok =
        ({ st with status := CaptureStatus.in_progress,
                   timer_duration := some
                     ((1 / RATE_LIMIT - (now - st.last_time) / 1000000 - st.delay) * 1000) },
         [ScreencopyAction.timer_arm
            ((1 / RATE_LIMIT - (now - st.last_time) / 1000000 - st.delay) * 1000)],
         0) ∧
      screencopy_issue_instant now (screencopy_start st now ok).2.1 =
        some (st.last_time + 1000000 * (1 / RATE_LIMIT - st.delay))) ∧
    (¬ 0 < (1 / RATE_LIMIT - (now - st.last_time) / 1000000 - st.delay) * 1000 →
      ok = true →
      screencopy_start st now ok =
        ({ st with status := CaptureStatus.in_progress, start_time := now,
                   frame := true },
         [ScreencopyAction.capture_request], 0)) ∧
    (∀ inst : Rat,
      screencopy_issue_instant now (screencopy_start st now ok).2.1 = some inst →
      st.last_time + 1000000 * (1 / RATE_LIMIT - st.delay) ≤ inst) := by
  have hfire : now + 1000 *
      ((1 / RATE_LIMIT - (now - st.last_time) / 1000000 - st.delay) * 1000) =
      st.last_time + 1000000 * (1 / RATE_LIMIT - st.delay) := by
    unfold RATE_LIMIT
    ring
  by_cases htl :
      0 < (1 / RATE_LIMIT - (now - st.last_time) / 1000000 - st.delay) * 1000
  · have hrun : screencopy_start st now ok =
        ({ st with status := CaptureStatus.in_progress,
                   timer_duration := some
                     ((1 / RATE_LIMIT - (now - st.last_time) / 1000000 - st.delay) * 1000) },
         [ScreencopyAction.timer_arm
            ((1 / RATE_LIMIT - (now - st.last_time) / 1000000 - st.delay) * 1000)],
         0) := by
      unfold screencopy_start
      rw [if_neg hst, if_pos htl]
    refine ⟨fun _ => ⟨hrun, ?_⟩, fun h => absurd htl h, ?_⟩
    · rw [hrun]
      unfold screencopy_issue_instant
      rw [hfire]
    · intro inst hinst
      rw [hrun] at hinst
      unfold screencopy_issue_instant at hinst
      rw [hfire] at hinst
      rw [Option.some_inj] at hinst
      exact le_of_eq hinst
  · have hle : st.last_time + 1000000 * (1 / RATE_LIMIT - st.delay) ≤ now := by
      rw [not_lt] at htl
      unfold RATE_LIMIT at htl ⊢
      nlinarith [htl]
    refine ⟨fun h => absurd h htl, ?_, ?_⟩
    · intro _ hok
      unfold screencopy_start screencopy__start_capture
      rw [if_neg hst, if_neg htl, if_pos hok]
    · intro inst hinst
      unfold screencopy_start screencopy__start_capture at hinst
      rw [if_neg hst, if_neg htl] at hinst
      by_cases hok : ok = true
      · rw [if_pos hok] at hinst
        unfold screencopy_issue_instant at hinst
        rw [Option.some_inj] at hinst
        rw [hinst] at hle
        exact hle
      · rw [if_neg hok] at hinst
        exact absurd hinst (by unfold screencopy_issue_instant; simp)

theorem screencopy_start_rate_limit_witness :
    scRate.status ≠ CaptureStatus.in_progress ∧
    scRate.last_time + 1000000 * (1 / RATE_LIMIT - scRate.delay) ≤ (40000 : Rat) :=
  ⟨by decide,
   (screencopy_start_rate_limit scRate 10000 true (by decide)).2.2 40000
     (by norm_num [screencopy_start, scRate, RATE_LIMIT,
        screencopy_issue_instant, screencopy__start_capture])⟩

/-- Claim C8: a dmabuf `cancel` event sets the status to `CAPTURE_FATAL`
exactly when the reason is `PERMANENT` and to `CAPTURE_FAILED` otherwise,
and the (only) `on_done` invocation of the handler observes that status —
the status is committed before `on_done` runs. -/
theorem dmabuf_frame_cancel_status (st : DmabufCapture) (p : Bool) :
    ((dmabuf_frame_cancel st p).1.status = CaptureStatus.fatal ↔ p = true) ∧
    (dmabuf_frame_cancel st p).1.status
      = (if p then CaptureStatus.fatal else CaptureStatus.failed) ∧
    DmabufAction.on_done (if p then CaptureStatus.fatal else CaptureStatus.failed)
      ∈ (dmabuf_frame_cancel st p).2 ∧
    (∀ q, DmabufAction.on_done q ∈ (dmabuf_frame_cancel st p).2 →
      q = (if p then CaptureStatus.fatal else CaptureStatus.failed)) := by
  unfold dmabuf_frame_cancel dmabuf_capture_stop dmabuf_close_fds
  refine ⟨?_, ?_, ?_, ?_⟩
  · cases p <;> simp
  · cases p <;> simp
  · cases p <;> split_ifs <;> simp
  · intro q hq
    cases p <;> by_cases ht : st.timer_armed <;> by_cases hz : st.zwlr_frame <;>
      simp [ht, hz] at hq <;> simp [hq]

theorem dmabuf_frame_cancel_status_witness :
    (dmabuf_frame_cancel dmabuf_init true).1.status = CaptureStatus.fatal ∧
    (dmabuf_frame_cancel dmabuf_init false).1.status = CaptureStatus.failed ∧
    CaptureStatus.fatal
      = (if true then CaptureStatus.fatal else CaptureStatus.failed) :=
  ⟨(dmabuf_frame_cancel_status dmabuf_init true).2.1,
   (dmabuf_frame_cancel_status dmabuf_init false).2.1,
   (dmabuf_frame_cancel_status dmabuf_init true).2.2.2 CaptureStatus.fatal
     (by decide)⟩

/-- Claim C9 fails on the code: over `c9_trace` the plane fd 5, delivered by
a single `object` event, is closed twice — once when the first cycle's
`ready` handler delivers the frame past the deadline, and once more by the
second cycle's `cancel`, because `dmabuf_frame_start` set `n_planes` from
`num_objects` before any `object` event had refreshed the stale fd slots. -/
theorem dmabuf_fd_double_close :
    (dmabuf_run dmabuf_init c9_trace).2.count (DmabufAction.close_fd 5) = 2 := by
  norm_num [dmabuf_run, dmabuf_step, dmabuf_capture_start, dmabuf_frame_start,
    dmabuf_frame_object, dmabuf_frame_ready, dmabuf_capture_stop, dmabuf_close_fds,
    dmabuf_frame_cancel, dmabuf_init, c9_trace, RATE_LIMIT, List.count_cons]
  norm_num [List.range_succ, List.count_cons]
  simp

/-- Claim C10: the dmabuf deadline-timer callback delivers `on_done` with
`CAPTURE_DONE` only when the status is still `CAPTURE_IN_PROGRESS` at fire
time; with any other status the fire changes nothing and invokes nothing.
`stop` leaves the status `CAPTURE_STOPPED` with the timer disarmed, and
`cancel` leaves a status other than `CAPTURE_IN_PROGRESS`, so a fire after
either is a no-op. -/
theorem dmabuf_timer_stale_guard (st : DmabufCapture) (now : Rat) :
    (st.status ≠ CaptureStatus.in_progress →
      dmabuf_timer_ready st now = (st, [])) ∧
    (st.status = CaptureStatus.in_progress →
      (dmabuf_timer_ready st now).1.status = CaptureStatus.done ∧
      DmabufAction.on_done CaptureStatus.done ∈ (dmabuf_timer_ready st now).2 ∧
      ∀ q, DmabufAction.on_done q ∈ (dmabuf_timer_ready st now).2 →
        q = CaptureStatus.done) ∧
    ((dmabuf_capture_stop st).1.status = CaptureStatus.stopped ∧
      (dmabuf_capture_stop st).1.timer_armed = false) ∧
    (∀ p, (dmabuf_frame_cancel st p).1.status ≠ CaptureStatus.in_progress) := by
  refine ⟨?_, ?_, ?_, ?_⟩
  · intro h
    unfold dmabuf_timer_ready
    rw [if_pos h]
  · intro h
    unfold dmabuf_timer_ready
    rw [if_neg (by simp [h])]
    refine ⟨rfl, by simp, ?_⟩
    intro q hq
    unfold dmabuf_close_fds at hq
    simp [List.mem_map] at hq
    tauto
  · unfold dmabuf_capture_stop dmabuf_close_fds
    by_cases ht : st.timer_armed <;> by_cases hz : st.zwlr_frame <;> simp [ht, hz]
  · intro p
    unfold dmabuf_frame_cancel dmabuf_close_fds
    cases p <;> simp

theorem dmabuf_timer_stale_guard_witness :
    dmabuf_init.status ≠ CaptureStatus.in_progress ∧
    dmabuf_timer_ready dmabuf_init 123 = (dmabuf_init, []) :=
  ⟨by decide, (dmabuf_timer_stale_guard dmabuf_init 123).1 (by decide)⟩
